import Mathlib

/-!
Shallow embedding of the oanda-algo-trading-basics repository.

Prices are modelled as exact rationals (`ℚ`); the Python source uses
floats, but every claim under verification is about the arithmetic
relationships (means, differences, comparisons), which the rational
model captures exactly.

The embedding covers:
* `PracticalEURUSDTrader` from
  `src/brokers/oanda/src/trading/practical_eur_usd_trading_scenario.py`
  (price buffer, moving average, buy/sell signals, trade execution,
  position closing, performance analysis);
* `OandaConfig` from `src/config.py` (environment selection and
  credential validation);
* `RealTimeDataStreamer._update_statistics` from
  `src/brokers/oanda/src/trading/streaming_highfrequency_realtime_data.py`
  (running max/min of tick spreads);
* `OrderManager.get_open_positions` from
  `src/src/order_management_examples.py` (hard-coded position list).
-/

namespace OandaAlgo

/-- A price point as produced by `get_current_price`: bid, ask and mid. -/
structure PriceData where
  bid : ℚ
  ask : ℚ
  mid : ℚ
deriving Repr, DecidableEq

/-- The trader's position: the Python code uses the strings
`'long'` / `'short'`, with `None` for flat (modelled as `Option Position`). -/
inductive Position where
  | long
  | short
deriving Repr, DecidableEq

/-- A trade record, as built by `execute_trade` and mutated by
`close_position`. Fields that Python adds later (`closing_price`,
`closing_reason`) are `Option`s that start out `none`. -/
structure Trade where
  trade_id : ℕ
  type : String
  instrument : String
  units : ℚ
  execution_price : ℚ
  moving_average : Option ℚ
  profit_loss : Option ℚ
  closing_price : Option ℚ
  closing_reason : Option String
deriving Repr, DecidableEq

/-- The mutable state of `PracticalEURUSDTrader` that the trading logic
reads and writes. `price_history` is the deque with
`maxlen = moving_average_window`; the ordering is oldest first, as in the
Python deque. -/
structure TraderState where
  position_size : ℚ
  current_balance : ℚ
  moving_average_window : ℕ
  price_history : List PriceData
  trades : List Trade
  current_position : Option Position
  trade_count : ℕ
deriving Repr, DecidableEq

/-- `deque(maxlen = maxlen).append`: append on the right, evicting from
the left whenever the length would exceed `maxlen`. -/
def dequeAppend (maxlen : ℕ) (xs : List α) (x : α) : List α :=
  ((xs ++ [x]).drop ((xs.length + 1) - maxlen))

/-- Feeding a whole sequence of price points into the deque, in order,
as the loop in `run_trading_session` does with
`self.price_history.append(price_data)`. -/
def appendPrices (maxlen : ℕ) (init : List α) (xs : List α) : List α :=
  xs.foldl (dequeAppend maxlen) init

/-- `PracticalEURUSDTrader.calculate_moving_average`: `None` when fewer
than two points are buffered, otherwise `statistics.mean` of the `'mid'`
prices in the buffer. -/
def calculate_moving_average (s : TraderState) : Option ℚ :=
  if s.price_history.length < 2 then none
  else some ((s.price_history.map PriceData.mid).sum / (s.price_history.length : ℚ))

/-- `PracticalEURUSDTrader.should_buy`: buy when the moving average
exists, the current price is strictly below it, and the position is not
already long. -/
def should_buy (s : TraderState) (current_price : ℚ) (moving_average : Option ℚ) : Bool :=
  match moving_average with
  | none => false
  | some ma => decide (current_price < ma) && decide (s.current_position ≠ some Position.long)

/-- `PracticalEURUSDTrader.should_sell`: sell when the moving average
exists, the current price is strictly above it, and the position is not
already short. -/
def should_sell (s : TraderState) (current_price : ℚ) (moving_average : Option ℚ) : Bool :=
  match moving_average with
  | none => false
  | some ma => decide (ma < current_price) && decide (s.current_position ≠ some Position.short)

/-- The action passed to `execute_trade` (`'buy'` or `'sell'`). -/
inductive TradeAction where
  | buy
  | sell
deriving Repr, DecidableEq

/-- `PracticalEURUSDTrader.execute_trade`: increments `trade_count`,
sets the position (`long` for buy at the ask, `short` for sell at the
bid), builds the trade record with `profit_loss = None`, and appends it
to `trades`. -/
def execute_trade (s : TraderState) (action : TradeAction) (price_data : PriceData) :
    TraderState × Trade :=
  let new_count := s.trade_count + 1
  let execution_price := match action with
    | .buy => price_data.ask
    | .sell => price_data.bid
  let new_position : Position := match action with
    | .buy => .long
    | .sell => .short
  let trade_type := match action with
    | .buy => "BUY"
    | .sell => "SELL"
  let s1 := { s with trade_count := new_count, current_position := some new_position }
  let trade : Trade := {
    trade_id := new_count
    type := trade_type
    instrument := "EUR_USD"
    units := s.position_size
    execution_price := execution_price
    moving_average := calculate_moving_average s1
    profit_loss := none
    closing_price := none
    closing_reason := none }
  ({ s1 with trades := s1.trades ++ [trade] }, trade)

/-- `PracticalEURUSDTrader.close_position`: a no-op returning `None`
when there is no position or no trade record; otherwise computes the
P&L from the last trade's execution price (long closes at the bid,
short at the ask), records it on the last trade, adds it to the
balance, and clears the position. The returned `Option ℚ` is the
function's return value. -/
def close_position (s : TraderState) (price_data : PriceData) (reason : String) :
    TraderState × Option ℚ :=
  match s.current_position with
  | none => (s, none)
  | some pos =>
    match s.trades.getLast? with
    | none => (s, none)
    | some last_trade =>
      let closing_price := match pos with
        | .long => price_data.bid
        | .short => price_data.ask
      let pnl := match pos with
        | .long => (closing_price - last_trade.execution_price) * s.position_size
        | .short => (last_trade.execution_price - closing_price) * s.position_size
      let updated := { last_trade with
        profit_loss := some pnl
        closing_price := some closing_price
        closing_reason := some reason }
      ({ s with
          trades := s.trades.dropLast ++ [updated]
          current_balance := s.current_balance + pnl
          current_position := none },
       some pnl)

/-- The metrics dictionary built by `analyze_performance`.
`profit_factor` is `float('inf')` when there are no losing trades,
modelled as `⊤` in `WithTop ℚ`. -/
structure Metrics where
  total_trades : ℕ
  completed_trades : ℕ
  winning_trades : ℕ
  losing_trades : ℕ
  total_profit_loss : ℚ
  largest_win : ℚ
  largest_loss : ℚ
  average_trade_pnl : ℚ
  win_rate : ℚ
  profit_factor : WithTop ℚ
  final_balance : ℚ
  roi : ℚ

/-- `PracticalEURUSDTrader.analyze_performance`: returns `none` (the
Python early `return`) when there are no trades or no completed trades;
otherwise the metrics dictionary. `max(..., default=0)` and
`min(..., default=0)` are modelled with `List.max?` / `List.min?` and
`Option.getD 0`. -/
def analyze_performance (initial_balance current_balance : ℚ) (trades : List Trade) :
    Option Metrics :=
  if trades.isEmpty then none
  else
    let trades_with_pnl := trades.filter (fun t => t.profit_loss.isSome)
    if trades_with_pnl.isEmpty then none
    else
      let pnl := fun (t : Trade) => t.profit_loss.getD 0
      let total_pnl := (trades_with_pnl.map pnl).sum
      let winning_trades := trades_with_pnl.filter (fun t => decide (0 < pnl t))
      let losing_trades := trades_with_pnl.filter (fun t => decide (pnl t < 0))
      some {
        total_trades := trades.length
        completed_trades := trades_with_pnl.length
        winning_trades := winning_trades.length
        losing_trades := losing_trades.length
        total_profit_loss := total_pnl
        largest_win := ((winning_trades.map pnl).max?).getD 0
        largest_loss := ((losing_trades.map pnl).min?).getD 0
        average_trade_pnl := total_pnl / (trades_with_pnl.length : ℚ)
        win_rate := (winning_trades.length : ℚ) / (trades_with_pnl.length : ℚ) * 100
        profit_factor :=
          if losing_trades.isEmpty then ⊤
          else (((winning_trades.map pnl).sum / |(losing_trades.map pnl).sum| : ℚ) : WithTop ℚ)
        final_balance := current_balance
        roi := total_pnl / initial_balance * 100 }

/-- The process environment variables read by `src/config.py` and
`diagnose_oanda.py`; `none` models an unset variable. -/
structure EnvVars where
  oanda_api_key : Option String
  oanda_account_id : Option String
  oanda_environment : Option String
deriving Repr, DecidableEq

/-- The `OandaConfig` object after `__init__`. -/
structure OandaConfig where
  api_key : Option String
  account_id : Option String
  environment : String
  api_url : String
  stream_url : String
deriving Repr, DecidableEq

/-- `OandaConfig.__init__`: `os.getenv('OANDA_ENVIRONMENT', 'practice')`
defaults to `"practice"`, and only the exact string `"practice"` selects
the practice URLs; anything else falls to the live-trading URLs. -/
def OandaConfig.ofEnv (env : EnvVars) : OandaConfig :=
  let environment := env.oanda_environment.getD "practice"
  if environment = "practice" then
    { api_key := env.oanda_api_key
      account_id := env.oanda_account_id
      environment := environment
      api_url := "https://api-fxpractice.oanda.com"
      stream_url := "https://stream-fxpractice.oanda.com" }
  else
    { api_key := env.oanda_api_key
      account_id := env.oanda_account_id
      environment := environment
      api_url := "https://api-fxtrade.oanda.com"
      stream_url := "https://stream-fxtrade.oanda.com" }

/-- Python truthiness test `not s` for an optional string: true exactly
for `None` and for the empty string. -/
def strFalsy : Option String → Bool
  | none => true
  | some s => s == ""

/-- `OandaConfig.validate_config`: raises `ValueError` (modelled as
`Except.error` carrying the message) when the API key is falsy, then
when the account ID is falsy; otherwise returns `True`. The config
itself is not touched (the model is a pure function of it). -/
def validate_config (c : OandaConfig) : Except String Bool :=
  if strFalsy c.api_key then
    Except.error "OANDA_API_KEY not found in environment variables"
  else if strFalsy c.account_id then
    Except.error "OANDA_ACCOUNT_ID not found in environment variables"
  else Except.ok true

/-- The spread-tracking part of `RealTimeDataStreamer.stats`.
`min_spread` starts at `float('inf')`, modelled as `⊤ : WithTop ℚ`;
`max_spread` starts at `0`. -/
structure StreamStats where
  total_ticks : ℕ
  max_spread : ℚ
  min_spread : WithTop ℚ

/-- `RealTimeDataStreamer.__init__`'s initial `stats` values for the
fields tracked here. -/
def initStats : StreamStats :=
  { total_ticks := 0, max_spread := 0, min_spread := ⊤ }

/-- `RealTimeDataStreamer._update_statistics`, restricted to the fields
that depend only on the tick itself: counts the tick and folds the
tick's spread into the running `max_spread` / `min_spread`. -/
def update_statistics (st : StreamStats) (spread : ℚ) : StreamStats :=
  { total_ticks := st.total_ticks + 1
    max_spread := max st.max_spread spread
    min_spread := min st.min_spread (spread : WithTop ℚ) }

/-- Processing a whole sequence of tick spreads, as the stream loop
calls `_update_statistics` once per tick. -/
def processSpreads (st : StreamStats) (spreads : List ℚ) : StreamStats :=
  spreads.foldl update_statistics st

/-- One entry of the hard-coded list returned by
`OrderManager.get_open_positions`. -/
structure BrokerPosition where
  instrument : String
  units : ℤ
  avg_price : ℚ
  current_price : ℚ
  unrealized_pnl : ℚ
  margin_used : ℚ
deriving Repr, DecidableEq

/-- An order dict as returned by the `_simulate_*_order` helpers of
`OrderManager` (the fields common to market/limit/stop orders). -/
structure SimulatedOrder where
  order_id : ℕ
  type : String
  instrument : String
  units : ℤ
  price : Option ℚ
deriving Repr, DecidableEq

/-- `OrderManager.get_open_positions`: the Python method builds and
returns a literal two-element list, reading no state at all (the
`OrderManager` object stores no created orders). The parameter stands
for whatever orders were previously created through the manager; the
body ignores it, exactly as the source ignores `self`'s history. -/
def get_open_positions (previously_created : List SimulatedOrder) : List BrokerPosition :=
  let _ := previously_created
  [ { instrument := "EUR_USD"
      units := 10000
      avg_price := 1.16045
      current_price := 1.16052
      unrealized_pnl := 7.0
      margin_used := 387.5 },
    { instrument := "GBP_USD"
      units := -5000
      avg_price := 1.27235
      current_price := 1.27225
      unrealized_pnl := 5.0
      margin_used := 212.7 } ]

/-! ### Helper lemmas -/

lemma strFalsy_eq_true_iff (o : Option String) :
    strFalsy o = true ↔ (o = none ∨ o = some "") := by
  cases o with
  | none => simp [strFalsy]
  | some s => simp [strFalsy]

lemma foldl_max_bounds {α : Type} [LinearOrder α] (a : α) (l : List α) :
    a ≤ l.foldl max a ∧ ∀ x ∈ l, x ≤ l.foldl max a := by
  induction l generalizing a with
  | nil => simp
  | cons y ys ih =>
    have h := ih (max a y)
    refine ⟨le_trans (le_max_left a y) h.1, ?_⟩
    intro x hx
    rcases List.mem_cons.mp hx with rfl | hx
    · exact le_trans (le_max_right a x) h.1
    · exact h.2 x hx

lemma foldl_max_mem {α : Type} [LinearOrder α] (a : α) (l : List α) :
    l.foldl max a = a ∨ l.foldl max a ∈ l := by
  induction l generalizing a with
  | nil => exact Or.inl rfl
  | cons y ys ih =>
    rcases ih (max a y) with h | h
    · rcases max_choice a y with hm | hm
      · exact Or.inl (by simpa [hm] using h)
      · exact Or.inr (List.mem_cons.mpr (Or.inl (by simpa [hm] using h)))
    · exact Or.inr (List.mem_cons.mpr (Or.inr h))

lemma foldl_min_bounds {α : Type} [LinearOrder α] (a : α) (l : List α) :
    l.foldl min a ≤ a ∧ ∀ x ∈ l, l.foldl min a ≤ x := by
  induction l generalizing a with
  | nil => simp
  | cons y ys ih =>
    have h := ih (min a y)
    refine ⟨le_trans h.1 (min_le_left a y), ?_⟩
    intro x hx
    rcases List.mem_cons.mp hx with rfl | hx
    · exact le_trans h.1 (min_le_right a x)
    · exact h.2 x hx

lemma foldl_min_mem {α : Type} [LinearOrder α] (a : α) (l : List α) :
    l.foldl min a = a ∨ l.foldl min a ∈ l := by
  induction l generalizing a with
  | nil => exact Or.inl rfl
  | cons y ys ih =>
    rcases ih (min a y) with h | h
    · rcases min_choice a y with hm | hm
      · exact Or.inl (by simpa [hm] using h)
      · exact Or.inr (List.mem_cons.mpr (Or.inl (by simpa [hm] using h)))
    · exact Or.inr (List.mem_cons.mpr (Or.inr h))

/-! ### C1: buy/sell signal characterisation -/

/-- C1: `should_buy p m` is true iff the moving average `m` exists, the
price is strictly below it, and the position is not already long;
`should_sell p m` is true iff `m` exists, the price is strictly above
it, and the position is not already short; when the price equals the
moving average neither signal fires; and the two signals are never both
true at once. -/
theorem should_buy_should_sell_spec (s : TraderState) (p : ℚ) (m : Option ℚ) :
    (should_buy s p m = true ↔
      ∃ ma, m = some ma ∧ p < ma ∧ s.current_position ≠ some Position.long)
    ∧ (should_sell s p m = true ↔
      ∃ ma, m = some ma ∧ ma < p ∧ s.current_position ≠ some Position.short)
    ∧ (m = some p → should_buy s p m = false ∧ should_sell s p m = false)
    ∧ ¬(should_buy s p m = true ∧ should_sell s p m = true) := by
  refine ⟨?_, ?_, ?_, ?_⟩
  · cases m with
    | none => simp [should_buy]
    | some ma => simp [should_buy]
  · cases m with
    | none => simp [should_sell]
    | some ma => simp [should_sell]
  · rintro rfl
    simp [should_buy, should_sell]
  · rintro ⟨hb, hs⟩
    cases m with
    | none => simp [should_buy] at hb
    | some ma =>
      simp [should_buy] at hb
      simp [should_sell] at hs
      exact absurd hs.1 (not_lt.mpr (le_of_lt hb.1))

/-! ### C3: moving average of the buffered prices -/

/-- C3: `calculate_moving_average` returns `none` when fewer than two
price points are buffered, and otherwise the arithmetic mean of the
buffered `'mid'` prices — in particular it already produces a value with
only two points, well before the 20-point window is full (see the
witness). -/
theorem calculate_moving_average_spec (s : TraderState) :
    (s.price_history.length < 2 → calculate_moving_average s = none)
    ∧ (2 ≤ s.price_history.length →
        calculate_moving_average s =
          some ((s.price_history.map PriceData.mid).sum / (s.price_history.length : ℚ))) := by
  constructor
  · intro h
    simp [calculate_moving_average, h]
  · intro h
    rw [calculate_moving_average, if_neg (by omega)]

/-- Concrete state with a 20-wide window but only two buffered prices. -/
def twoPointState : TraderState :=
  { position_size := 1000
    current_balance := 10000
    moving_average_window := 20
    price_history := [⟨1, 1, 1⟩, ⟨2, 2, 2⟩]
    trades := []
    current_position := none
    trade_count := 0 }

/-- C3 witness: with exactly two buffered prices (mid 1 and mid 2) the
moving average is already `some (3/2)`, despite the window being 20. -/
theorem calculate_moving_average_spec_witness :
    twoPointState.moving_average_window = 20
    ∧ twoPointState.price_history.length = 2
    ∧ calculate_moving_average twoPointState = some (3 / 2) := by
  refine ⟨rfl, rfl, ?_⟩
  have h := (calculate_moving_average_spec twoPointState).2 (by decide)
  rw [h]
  norm_num [twoPointState]

/-! ### C10: close_position is a no-op without a position or trades -/

/-- C10: when there is no current position, or the trades list is
empty, `close_position` returns `None` and leaves the whole trader
state unchanged. -/
theorem close_position_noop (s : TraderState) (pd : PriceData) (reason : String)
    (h : s.current_position = none ∨ s.trades = []) :
    close_position s pd reason = (s, none) := by
  rcases h with h | h
  · simp [close_position, h]
  · cases hp : s.current_position with
    | none => simp [close_position, hp]
    | some pos => simp [close_position, hp, h]

/-- Concrete price point used by several witnesses. -/
def samplePrice : PriceData := { bid := 1.17, ask := 1.1703, mid := 1.17015 }

/-- C10 witness: on the concrete empty-position state, `close_position`
returns the state unchanged with `none`. -/
theorem close_position_noop_witness :
    close_position twoPointState samplePrice "end_of_session" = (twoPointState, none) :=
  close_position_noop twoPointState samplePrice "end_of_session" (Or.inl rfl)

/-! ### C2: realized P&L on close -/

/-- C2: with an open position and a non-empty trades list,
`close_position` computes the P&L as a price difference scaled by the
position size (long: closing bid minus entry price; short: entry price
minus closing ask), records it (with the closing price and reason) on
the last trade record, adds it to the balance, and resets the position
to `none`. -/
theorem close_position_spec (s : TraderState) (pd : PriceData) (reason : String)
    (pos : Position) (last_trade : Trade)
    (hpos : s.current_position = some pos)
    (hlast : s.trades.getLast? = some last_trade) :
    ∃ s1 pnl, close_position s pd reason = (s1, some pnl)
      ∧ pnl = (match pos with
          | Position.long => (pd.bid - last_trade.execution_price) * s.position_size
          | Position.short => (last_trade.execution_price - pd.ask) * s.position_size)
      ∧ s1.trades = s.trades.dropLast ++
          [{ last_trade with
              profit_loss := some pnl
              closing_price := some (match pos with
                | Position.long => pd.bid
                | Position.short => pd.ask)
              closing_reason := some reason }]
      ∧ s1.current_balance = s.current_balance + pnl
      ∧ s1.current_position = none
      ∧ s1.price_history = s.price_history := by
  cases pos with
  | long =>
    simp only [close_position, hpos, hlast]
    exact ⟨_, _, rfl, rfl, rfl, rfl, rfl, rfl⟩
  | short =>
    simp only [close_position, hpos, hlast]
    exact ⟨_, _, rfl, rfl, rfl, rfl, rfl, rfl⟩

/-- A concrete open BUY trade record. -/
def sampleOpenTrade : Trade :=
  { trade_id := 1
    type := "BUY"
    instrument := "EUR_USD"
    units := 1000
    execution_price := 1.16
    moving_average := none
    profit_loss := none
    closing_price := none
    closing_reason := none }

/-- A concrete trader state holding a long position opened by
`sampleOpenTrade`. -/
def sampleLongState : TraderState :=
  { position_size := 1000
    current_balance := 10000
    moving_average_window := 20
    price_history := []
    trades := [sampleOpenTrade]
    current_position := some Position.long
    trade_count := 1 }

/-- C2 witness: closing the concrete long position at bid 1.17 yields
P&L `(1.17 − 1.16) × 1000`, credited to the balance, and clears the
position. -/
theorem close_position_spec_witness :
    ∃ s1 pnl, close_position sampleLongState samplePrice "end_of_session" = (s1, some pnl)
      ∧ pnl = (samplePrice.bid - sampleOpenTrade.execution_price) * sampleLongState.position_size
      ∧ s1.current_balance = sampleLongState.current_balance + pnl
      ∧ s1.current_position = none := by
  obtain ⟨s1, pnl, h1, h2, h3, h4, h5, h6⟩ :=
    close_position_spec sampleLongState samplePrice "end_of_session"
      Position.long sampleOpenTrade rfl rfl
  exact ⟨s1, pnl, h1, h2, h4, h5⟩

/-! ### C4: the price buffer is a bounded sliding window -/

lemma dequeAppend_length (m : ℕ) (xs : List α) (x : α) :
    (dequeAppend m xs x).length = min (xs.length + 1) m := by
  simp [dequeAppend]
  omega

lemma appendPrices_eq_drop {α : Type} (m : ℕ) (acc xs : List α) (hacc : acc.length ≤ m) :
    appendPrices m acc xs = (acc ++ xs).drop ((acc.length + xs.length) - m) := by
  induction xs generalizing acc with
  | nil =>
    have h0 : acc.length - m = 0 := by omega
    simp [appendPrices, h0]
  | cons x xs ih =>
    have hlen : (dequeAppend m acc x).length = min (acc.length + 1) m :=
      dequeAppend_length m acc x
    have hle : (dequeAppend m acc x).length ≤ m := by omega
    have h2 := ih (dequeAppend m acc x) hle
    have hstep : appendPrices m acc (x :: xs) = appendPrices m (dequeAppend m acc x) xs := rfl
    rw [hstep, h2, hlen]
    rw [dequeAppend]
    have ha : acc.length + 1 - m ≤ (acc ++ [x]).length := by
      simp
    rw [← List.drop_append_of_le_length ha, List.drop_drop]
    have harr : (acc ++ [x]) ++ xs = acc ++ x :: xs := by
      simp
    rw [harr]
    congr 1
    simp
    omega

/-- C4: feeding any sequence of price points through the
`maxlen = 20` deque append leaves a buffer of length `min n 20` that
never exceeds 20 entries and consists of exactly the most recent
`min n 20` prices in their original order (the suffix of the input:
appending to a full buffer evicts the oldest entry). -/
theorem price_history_bounded (xs : List PriceData) :
    (appendPrices 20 [] xs).length ≤ 20
    ∧ (appendPrices 20 [] xs).length = min xs.length 20
    ∧ appendPrices 20 [] xs = xs.drop (xs.length - 20) := by
  have h := appendPrices_eq_drop 20 [] xs (by simp)
  simp at h
  refine ⟨?_, ?_, h⟩
  · rw [h]
    simp
    omega
  · rw [h]
    simp
    omega

/-! ### C5: credential validation -/

/-- C5: `validate_config` errors exactly when the API key is missing or
empty or the account ID is missing or empty; the API-key error message
is produced exactly when the API key is falsy (so the key is checked
first, masking any account-ID problem); and in all remaining cases the
result is `True`. The model is a pure function of the config, so the
configuration is left unchanged. -/
theorem validate_config_spec (c : OandaConfig) :
    ((∃ msg, validate_config c = Except.error msg) ↔
      (c.api_key = none ∨ c.api_key = some "" ∨
        c.account_id = none ∨ c.account_id = some ""))
    ∧ (validate_config c = Except.error "OANDA_API_KEY not found in environment variables" ↔
      (c.api_key = none ∨ c.api_key = some ""))
    ∧ (validate_config c = Except.error "OANDA_ACCOUNT_ID not found in environment variables" ↔
      (¬(c.api_key = none ∨ c.api_key = some "") ∧
        (c.account_id = none ∨ c.account_id = some "")))
    ∧ (validate_config c = Except.ok true ↔
      (¬(c.api_key = none ∨ c.api_key = some "") ∧
        ¬(c.account_id = none ∨ c.account_id = some ""))) := by
  have hk := strFalsy_eq_true_iff c.api_key
  have ha := strFalsy_eq_true_iff c.account_id
  cases hbk : strFalsy c.api_key <;> cases hba : strFalsy c.account_id <;>
    rw [hbk] at hk <;> rw [hba] at ha <;>
    simp only [Bool.false_eq_true, false_iff, true_iff] at hk ha <;>
    simp [validate_config, hbk, hba, hk, ha]

/-! ### C9: environment selection -/

/-- C9: when `OANDA_ENVIRONMENT` is unset (defaulting to
`"practice"`) or set to exactly `"practice"`, the practice endpoint
URLs are selected; every other value — e.g. `"Practice"` or any
arbitrary string — silently selects the live trading URLs
(api-fxtrade / stream-fxtrade), with no error raised (the model is
total). -/
theorem environment_selection_spec (env : EnvVars) :
    ((env.oanda_environment = none ∨ env.oanda_environment = some "practice") →
      (OandaConfig.ofEnv env).api_url = "https://api-fxpractice.oanda.com" ∧
      (OandaConfig.ofEnv env).stream_url = "https://stream-fxpractice.oanda.com")
    ∧ (∀ v, env.oanda_environment = some v → v ≠ "practice" →
      (OandaConfig.ofEnv env).api_url = "https://api-fxtrade.oanda.com" ∧
      (OandaConfig.ofEnv env).stream_url = "https://stream-fxtrade.oanda.com") := by
  constructor
  · rintro (h | h) <;> simp [OandaConfig.ofEnv, h]
  · intro v hv hne
    simp [OandaConfig.ofEnv, hv, hne]

/-- Environment with `OANDA_ENVIRONMENT` unset. -/
def envUnset : EnvVars :=
  { oanda_api_key := some "key"
    oanda_account_id := some "acct"
    oanda_environment := none }

/-- Environment with `OANDA_ENVIRONMENT` set to `"Practice"`
(capitalised, i.e. not the exact string `"practice"`). -/
def envCapitalised : EnvVars :=
  { oanda_api_key := some "key"
    oanda_account_id := some "acct"
    oanda_environment := some "Practice" }

/-- C9 witness: an unset variable yields the practice URLs, while the
capitalised `"Practice"` silently yields the live trading URLs. -/
theorem environment_selection_spec_witness :
    (OandaConfig.ofEnv envUnset).api_url = "https://api-fxpractice.oanda.com"
    ∧ (OandaConfig.ofEnv envCapitalised).api_url = "https://api-fxtrade.oanda.com"
    ∧ (OandaConfig.ofEnv envCapitalised).stream_url = "https://stream-fxtrade.oanda.com" :=
  ⟨((environment_selection_spec envUnset).1 (Or.inl rfl)).1,
   ((environment_selection_spec envCapitalised).2 "Practice" rfl (by decide)).1,
   ((environment_selection_spec envCapitalised).2 "Practice" rfl (by decide)).2⟩

/-! ### C8: hard-coded open-positions list -/

/-- C8: `get_open_positions` ignores any previously created orders and
always returns the same fixed two-element list: a long EUR_USD position
of 10000 units at average price 1.16045 and a short GBP_USD position of
−5000 units at average price 1.27235. -/
theorem get_open_positions_spec (orders : List SimulatedOrder) :
    get_open_positions orders = get_open_positions []
    ∧ ∃ p1 p2, get_open_positions orders = [p1, p2]
      ∧ p1.instrument = "EUR_USD" ∧ p1.units = 10000 ∧ 0 < p1.units
      ∧ p1.avg_price = 1.16045
      ∧ p2.instrument = "GBP_USD" ∧ p2.units = -5000 ∧ p2.units < 0
      ∧ p2.avg_price = 1.27235 := by
  refine ⟨rfl, _, _, rfl, rfl, rfl, by decide, rfl, rfl, rfl, by decide, rfl⟩

/-! ### C6: performance aggregation -/

lemma filter_isSome_map_getD (trades : List Trade) :
    (trades.filter (fun t => t.profit_loss.isSome)).map (fun t => t.profit_loss.getD 0) =
      trades.filterMap Trade.profit_loss := by
  induction trades with
  | nil => rfl
  | cons t ts ih =>
    cases h : t.profit_loss with
    | none => simp [List.filter_cons, List.filterMap_cons, h, ih]
    | some p => simp [List.filter_cons, List.filterMap_cons, h, ih]

lemma max_getD_zero_spec (l : List ℚ) :
    ((l.max?).getD 0 ∈ l ∨ (l = [] ∧ (l.max?).getD 0 = 0))
    ∧ ∀ x ∈ l, x ≤ (l.max?).getD 0 := by
  cases l with
  | nil => simp
  | cons w ws =>
    have hmax : (w :: ws).max? = some (ws.foldl max w) := rfl
    rw [hmax]
    have hb := foldl_max_bounds w ws
    have hm := foldl_max_mem w ws
    constructor
    · left
      rcases hm with h | h
      · rw [Option.getD_some, h]
        exact List.mem_cons_self _ _
      · exact List.mem_cons_of_mem _ h
    · intro x hx
      rcases List.mem_cons.mp hx with rfl | hx
      · exact hb.1
      · exact hb.2 x hx

lemma min_getD_zero_spec (l : List ℚ) :
    ((l.min?).getD 0 ∈ l ∨ (l = [] ∧ (l.min?).getD 0 = 0))
    ∧ ∀ x ∈ l, (l.min?).getD 0 ≤ x := by
  cases l with
  | nil => simp
  | cons w ws =>
    have hmin : (w :: ws).min? = some (ws.foldl min w) := rfl
    rw [hmin]
    have hb := foldl_min_bounds w ws
    have hm := foldl_min_mem w ws
    constructor
    · left
      rcases hm with h | h
      · rw [Option.getD_some, h]
        exact List.mem_cons_self _ _
      · exact List.mem_cons_of_mem _ h
    · intro x hx
      rcases List.mem_cons.mp hx with rfl | hx
      · exact hb.1
      · exact hb.2 x hx

lemma length_filter_pos_neg_zero (l : List ℚ) :
    (l.filter (fun p => decide (0 < p))).length
      + (l.filter (fun p => decide (p < 0))).length
      + (l.filter (fun p => decide (p = 0))).length = l.length := by
  induction l with
  | nil => rfl
  | cons x xs ih =>
    by_cases h1 : 0 < x
    · have h2 : ¬ x < 0 := asymm h1
      have h3 : x ≠ 0 := ne_of_gt h1
      simp only [List.filter_cons, decide_eq_true_eq, if_pos h1, if_neg h2, if_neg h3,
        List.length_cons]
      omega
    · by_cases h2 : x < 0
      · have h3 : x ≠ 0 := ne_of_lt h2
        simp only [List.filter_cons, decide_eq_true_eq, if_neg h1, if_pos h2, if_neg h3,
          List.length_cons]
        omega
      · have h3 : x = 0 := le_antisymm (not_lt.mp h1) (not_lt.mp h2)
        simp only [List.filter_cons, decide_eq_true_eq, if_neg h1, if_neg h2, if_pos h3,
          List.length_cons]
        omega

/-- C6: for any trades list with at least one completed trade (a
non-`none` `profit_loss`), `analyze_performance` produces metrics where
`total_profit_loss` is the sum of the completed P&L values,
`winning_trades` counts the strictly positive ones, `losing_trades` the
strictly negative ones (zero-P&L trades are counted in neither),
`win_rate` is winners over completed × 100, `largest_win` is the
maximum winning P&L (0 when there are no winners), and `largest_loss`
is the minimum losing P&L (0 when there are no losers). -/
theorem analyze_performance_spec (ib cb : ℚ) (trades : List Trade)
    (h2 : trades.filterMap Trade.profit_loss ≠ []) :
    ∃ m, analyze_performance ib cb trades = some m
      ∧ m.completed_trades = (trades.filterMap Trade.profit_loss).length
      ∧ m.total_profit_loss = (trades.filterMap Trade.profit_loss).sum
      ∧ m.winning_trades =
          ((trades.filterMap Trade.profit_loss).filter (fun p => decide (0 < p))).length
      ∧ m.losing_trades =
          ((trades.filterMap Trade.profit_loss).filter (fun p => decide (p < 0))).length
      ∧ m.winning_trades + m.losing_trades
          + ((trades.filterMap Trade.profit_loss).filter (fun p => decide (p = 0))).length
          = m.completed_trades
      ∧ m.win_rate = (m.winning_trades : ℚ) / (m.completed_trades : ℚ) * 100
      ∧ (∀ p ∈ trades.filterMap Trade.profit_loss, 0 < p → p ≤ m.largest_win)
      ∧ (m.largest_win ∈ (trades.filterMap Trade.profit_loss).filter (fun p => decide (0 < p))
          ∨ ((trades.filterMap Trade.profit_loss).filter (fun p => decide (0 < p)) = []
              ∧ m.largest_win = 0))
      ∧ (∀ p ∈ trades.filterMap Trade.profit_loss, p < 0 → m.largest_loss ≤ p)
      ∧ (m.largest_loss ∈ (trades.filterMap Trade.profit_loss).filter (fun p => decide (p < 0))
          ∨ ((trades.filterMap Trade.profit_loss).filter (fun p => decide (p < 0)) = []
              ∧ m.largest_loss = 0)) := by
  have hFM := filter_isSome_map_getD trades
  have hfil : trades.filter (fun t => t.profit_loss.isSome) ≠ [] := by
    intro h
    apply h2
    rw [← hFM, h]
    rfl
  have htr : trades ≠ [] := by
    intro h
    apply hfil
    rw [h]
    rfl
  have he1 : trades.isEmpty = false := List.isEmpty_eq_false.mpr htr
  have he2 : (trades.filter (fun t => t.profit_loss.isSome)).isEmpty = false :=
    List.isEmpty_eq_false.mpr hfil
  have hW : ((trades.filter (fun t => t.profit_loss.isSome)).filter
        (fun t => decide (0 < t.profit_loss.getD 0))).map (fun t => t.profit_loss.getD 0)
      = (trades.filterMap Trade.profit_loss).filter (fun p => decide (0 < p)) := by
    rw [← hFM, List.filter_map]
    rfl
  have hL : ((trades.filter (fun t => t.profit_loss.isSome)).filter
        (fun t => decide (t.profit_loss.getD 0 < 0))).map (fun t => t.profit_loss.getD 0)
      = (trades.filterMap Trade.profit_loss).filter (fun p => decide (p < 0)) := by
    rw [← hFM, List.filter_map]
    rfl
  have hlen : (trades.filter (fun t => t.profit_loss.isSome)).length
      = (trades.filterMap Trade.profit_loss).length := by
    rw [← hFM, List.length_map]
  have hWlen : ((trades.filter (fun t => t.profit_loss.isSome)).filter
        (fun t => decide (0 < t.profit_loss.getD 0))).length
      = ((trades.filterMap Trade.profit_loss).filter (fun p => decide (0 < p))).length := by
    rw [← hW, List.length_map]
  have hLlen : ((trades.filter (fun t => t.profit_loss.isSome)).filter
        (fun t => decide (t.profit_loss.getD 0 < 0))).length
      = ((trades.filterMap Trade.profit_loss).filter (fun p => decide (p < 0))).length := by
    rw [← hL, List.length_map]
  have hPart := length_filter_pos_neg_zero (trades.filterMap Trade.profit_loss)
  obtain ⟨hWmem, hWle⟩ :=
    max_getD_zero_spec ((trades.filterMap Trade.profit_loss).filter (fun p => decide (0 < p)))
  obtain ⟨hLmem, hLle⟩ :=
    min_getD_zero_spec ((trades.filterMap Trade.profit_loss).filter (fun p => decide (p < 0)))
  simp only [analyze_performance, he1, he2, Bool.false_eq_true, if_false]
  refine ⟨_, rfl, hlen, ?_, hWlen, hLlen, ?_, rfl, ?_, ?_, ?_, ?_⟩
  · rw [← hFM]
  · rw [hWlen, hLlen, hlen]
    exact hPart
  · intro p hp hpos
    dsimp only
    rw [hW]
    exact hWle p (List.mem_filter.mpr ⟨hp, by simpa using hpos⟩)
  · dsimp only
    rw [hW]
    exact hWmem
  · intro p hp hneg
    dsimp only
    rw [hL]
    exact hLle p (List.mem_filter.mpr ⟨hp, by simpa using hneg⟩)
  · dsimp only
    rw [hL]
    exact hLmem

/-- Trades for the C6 witness: a completed win (+10), a completed loss
(−5), and a still-open trade (no P&L yet). -/
def sampleClosedTrades : List Trade :=
  [ { sampleOpenTrade with trade_id := 1, profit_loss := some 10 },
    { sampleOpenTrade with trade_id := 2, type := "SELL", profit_loss := some (-5) },
    { sampleOpenTrade with trade_id := 3 } ]

lemma sampleClosedTrades_pnls :
    sampleClosedTrades.filterMap Trade.profit_loss = [10, -5] := rfl

lemma filter_pos_sample :
    List.filter (fun p => decide ((0:ℚ) < p)) [10, -5] = [10] := by
  norm_num [List.filter_cons]

lemma filter_neg_sample :
    List.filter (fun p => decide (p < (0:ℚ))) [10, -5] = [-5] := by
  norm_num [List.filter_cons]

/-- C6 witness: on the concrete trade list the metrics are
`completed = 2`, `total P&L = 5`, one winner, one loser,
`largest_win = 10`, `largest_loss = −5`. -/
theorem analyze_performance_spec_witness :
    ∃ m, analyze_performance 10000 10005 sampleClosedTrades = some m
      ∧ m.completed_trades = 2 ∧ m.total_profit_loss = 5
      ∧ m.winning_trades = 1 ∧ m.losing_trades = 1
      ∧ m.largest_win = 10 ∧ m.largest_loss = -5 := by
  obtain ⟨m, hm, hc, htot, hw, hl, hz, hr, hwb, hwm, hlb, hlm⟩ :=
    analyze_performance_spec 10000 10005 sampleClosedTrades
      (by rw [sampleClosedTrades_pnls]; exact List.cons_ne_nil _ _)
  rw [sampleClosedTrades_pnls] at hc htot hw hl hwm hlm
  rw [filter_pos_sample] at hw hwm
  rw [filter_neg_sample] at hl hlm
  refine ⟨m, hm, ?_, ?_, ?_, ?_, ?_, ?_⟩
  · rw [hc]; rfl
  · rw [htot]; norm_num
  · rw [hw]; rfl
  · rw [hl]; rfl
  · rcases hwm with h | h
    · exact List.mem_singleton.mp h
    · exact absurd h.1 (List.cons_ne_nil _ _)
  · rcases hlm with h | h
    · exact List.mem_singleton.mp h
    · exact absurd h.1 (List.cons_ne_nil _ _)

/-! ### C7: running max/min of tick spreads -/

/-- C7 counterexample: after a single tick whose spread is −1, the
claimed invariant "`max_spread` equals the maximum spread among all
ticks processed" fails: the maximum spread among the processed ticks is
−1, but `max_spread` is 0 (its initial value, which dominates every
negative spread). -/
theorem processSpreads_max_counterexample :
    (processSpreads initStats [(-1 : ℚ)]).max_spread = 0
    ∧ (processSpreads initStats [(-1 : ℚ)]).max_spread ≠ (-1 : ℚ) := by
  constructor
  · show max (0 : ℚ) (-1) = 0
    norm_num
  · show max (0 : ℚ) (-1) ≠ -1
    norm_num

lemma processSpreads_fields (st : StreamStats) (spreads : List ℚ) :
    (processSpreads st spreads).max_spread = spreads.foldl max st.max_spread
    ∧ (processSpreads st spreads).min_spread =
        (spreads.map (fun (s : ℚ) => (s : WithTop ℚ))).foldl min st.min_spread
    ∧ (processSpreads st spreads).total_ticks = st.total_ticks + spreads.length := by
  induction spreads generalizing st with
  | nil => simp [processSpreads]
  | cons x xs ih =>
    have h := ih (update_statistics st x)
    have hstep : processSpreads st (x :: xs) = processSpreads (update_statistics st x) xs := rfl
    rw [hstep]
    refine ⟨h.1, h.2.1, ?_⟩
    rw [h.2.2]
    simp [update_statistics]
    omega

/-- C7, amended: after processing a non-empty sequence of tick spreads,
`min_spread` is the exact minimum of all spreads (it starts at `∞`, so
the first tick always replaces it), while `max_spread` — initialised to
0 — is the maximum of 0 and all spreads: it is an upper bound on every
spread and is either one of the spreads or its initial value 0, so it
equals the true maximum only when some spread is ≥ 0. `total_ticks`
counts the ticks. -/
theorem processSpreads_stats_spec (spreads : List ℚ) (h : spreads ≠ []) :
    (0 ≤ (processSpreads initStats spreads).max_spread)
    ∧ (∀ s ∈ spreads, s ≤ (processSpreads initStats spreads).max_spread)
    ∧ ((processSpreads initStats spreads).max_spread ∈ spreads
        ∨ (processSpreads initStats spreads).max_spread = 0)
    ∧ (∀ s ∈ spreads, (processSpreads initStats spreads).min_spread ≤ (s : WithTop ℚ))
    ∧ (∃ s ∈ spreads, (processSpreads initStats spreads).min_spread = (s : WithTop ℚ))
    ∧ (processSpreads initStats spreads).total_ticks = spreads.length := by
  obtain ⟨hmax, hmin, hticks⟩ := processSpreads_fields initStats spreads
  have hmb := foldl_max_bounds (0 : ℚ) spreads
  have hmm := foldl_max_mem (0 : ℚ) spreads
  have hnb := foldl_min_bounds (⊤ : WithTop ℚ) (spreads.map (fun (s : ℚ) => (s : WithTop ℚ)))
  have hnm := foldl_min_mem (⊤ : WithTop ℚ) (spreads.map (fun (s : ℚ) => (s : WithTop ℚ)))
  have hini : initStats.max_spread = 0 := rfl
  have hini2 : initStats.min_spread = (⊤ : WithTop ℚ) := rfl
  rw [hini] at hmax
  rw [hini2] at hmin
  refine ⟨?_, ?_, ?_, ?_, ?_, ?_⟩
  · rw [hmax]; exact hmb.1
  · intro s hs; rw [hmax]; exact hmb.2 s hs
  · rw [hmax]
    rcases hmm with hm | hm
    · exact Or.inr hm
    · exact Or.inl hm
  · intro s hs
    rw [hmin]
    exact hnb.2 _ (List.mem_map_of_mem _ hs)
  · rw [hmin]
    rcases hnm with hm | hm
    · exfalso
      obtain ⟨s0, hs0⟩ := List.exists_mem_of_ne_nil spreads h
      have hle := hnb.2 _ (List.mem_map_of_mem (fun (s : ℚ) => (s : WithTop ℚ)) hs0)
      rw [hm] at hle
      exact WithTop.coe_ne_top (top_le_iff.mp hle)
    · obtain ⟨s0, hs0, hcoe⟩ := List.mem_map.mp hm
      exact ⟨s0, hs0, hcoe.symm⟩
  · rw [hticks]; simp [initStats]

/-- C7 amended-claim witness: for the concrete spreads `[3, 1, 2]` the
final `min_spread` is attained at one of the ticks, every spread is
below `max_spread`, and three ticks are counted. -/
theorem processSpreads_stats_spec_witness :
    (∀ s ∈ [(3 : ℚ), 1, 2], s ≤ (processSpreads initStats [(3 : ℚ), 1, 2]).max_spread)
    ∧ (∃ s ∈ [(3 : ℚ), 1, 2],
        (processSpreads initStats [(3 : ℚ), 1, 2]).min_spread = (s : WithTop ℚ))
    ∧ (processSpreads initStats [(3 : ℚ), 1, 2]).total_ticks = 3 := by
  obtain ⟨h0, hub, hmem, hlb, hach, hticks⟩ :=
    processSpreads_stats_spec [(3 : ℚ), 1, 2] (List.cons_ne_nil _ _)
  exact ⟨hub, hach, hticks⟩

end OandaAlgo
